import Mathlib

/-!
Shallow embedding of the simulation core of the pixel-imperfect game
(src/main.rs): the CollisionTree sparse spatial index and the per-tick
physics / scale-change logic, together with theorems settling the frozen
claims about them.

Machine-arithmetic conventions of the embedding:
* Rust i32 coordinates are modeled as unbounded ℤ and u32 sizes/counters as
  ℕ.  All values occurring in the program stay far below 2^31, so wrap-around
  never occurs on the traces considered; u32 subtraction is modeled by
  truncated ℕ subtraction.
* Rust f32 quantities (positions, velocities, timers) are modeled as ℚ; the
  operations the code performs on them (add, sub, mul, div by constants,
  min, max, abs, copysign, comparisons, truncation to i32) are exact at the
  magnitudes involved.
* The fixed-size leaf bit array `[bool; LEAF_SIZE * LEAF_SIZE]` is modeled as
  a total function ℕ → Bool (index i = (x - node.x) + (y - node.y) * width,
  exactly as in the source).
* Tree-recursive operations are written with an explicit fuel parameter so
  that they compute by kernel reduction; public wrappers pass the fuel
  `width + height + 1`, which exceeds the recursion depth of every tree the
  operations themselves build (each subdivision at least halves the larger
  side, up to the +3 rounding of the 4-alignment).
* `unreachable!()` (a Rust abort) is modeled by the distinguished result
  `InsRes.panic`; running out of fuel returns the same marker (resp. a fixed
  junk value for the other operations), and is proved not to happen where it
  matters.
-/

set_option maxRecDepth 100000

namespace PixelImperfect

section RatEval

/- Core Lean marks the Rat arithmetic operations irreducible, which keeps
`decide` from evaluating concrete ℚ expressions; restore semireducibility
for the scope of this development so they evaluate. -/
attribute [local semireducible] Rat.add Rat.mul Rat.inv Rat.sub

/-- LEAF_SIZE * LEAF_SIZE with LEAF_SIZE = 64 (src/main.rs line 277). -/
def LEAF_AREA : ℕ := 4096

/-- SPRITE_WIDTH = 16 (src/main.rs line 17). -/
def SPRITE_WIDTH : ℕ := 16

/-- MAX_SCALE = 180 (src/main.rs line 19). -/
def MAX_SCALE : ℕ := 180

/-- Rust `((n as f32 / 4.0).ceil() * 4.0) as u32`: rounding a size up to a
multiple of 4, as done by `CollisionTree::new`. -/
def quant (n : ℕ) : ℕ := 4 * ((n + 3) / 4)

/-- The CollisionTree node (src/main.rs lines 278-286). -/
structure CTree where
  x : ℤ
  y : ℤ
  width : ℕ
  height : ℕ
  free_pixels : ℕ
  children : Option (List CTree)
  grid : Option (ℕ → Bool)

/-- Rust `CollisionTree::new` (lines 289-301): bounds quantized up to a multiple
of 4, counter initialized to the full area, no children and no grid. -/
def CTree.new (x y : ℤ) (width height : ℕ) : CTree :=
  { x := x, y := y, width := quant width, height := quant height,
    free_pixels := quant width * quant height, children := none, grid := none }

/-- Rust `CollisionTree::clear` (lines 303-307). -/
def CTree.clear (t : CTree) : CTree :=
  { t with free_pixels := t.width * t.height, children := none, grid := none }

/-- Point-in-node test used by `insert` / `check_point`
(`x >= child.x && x < child.x + width && ...`). -/
def inNode (t : CTree) (px py : ℤ) : Prop :=
  t.x ≤ px ∧ px < t.x + (t.width : ℤ) ∧ t.y ≤ py ∧ py < t.y + (t.height : ℤ)

instance (t : CTree) (px py : ℤ) : Decidable (inNode t px py) := by
  unfold inNode; infer_instance

/-- The four child nodes built whenever a node subdivides; this identical
block appears in `insert` (lines 336-356) and twice in `insert_rect`
(lines 471-491, 525-545).  Note the fourth child: its height argument is
`self.width / 2` in the source. -/
def subdivide (x y : ℤ) (w h : ℕ) : List CTree :=
  [ CTree.new x y (w / 2) (h / 2),
    CTree.new (x + ((w / 2 : ℕ) : ℤ)) y (w / 2) (h / 2),
    CTree.new (x + ((w / 2 : ℕ) : ℤ)) (y + ((h / 2 : ℕ) : ℤ)) (w / 2) (h / 2),
    CTree.new x (y + ((h / 2 : ℕ) : ℤ)) (w / 2) (w / 2) ]

/-- Result of `insert`: `Err(())`, `Ok(b)`, or the `unreachable!()` abort. -/
inductive InsRes where
  | err : InsRes
  | ok : Bool → InsRes
  | panic : InsRes
deriving DecidableEq

/-- The child loop of `insert` (lines 321-333 / 357-369): recurse into the
first child containing the point; `none` when no child contains it (in which
case the source falls through to `unreachable!()`). -/
def insChildren (ins : CTree → ℤ → ℤ → CTree × InsRes) :
    List CTree → ℤ → ℤ → Option (List CTree × InsRes)
  | [], _, _ => none
  | c :: rest, px, py =>
    if inNode c px py then
      let r := ins c px py
      some (r.1 :: rest, r.2)
    else
      match insChildren ins rest px py with
      | some (rest', r) => some (c :: rest', r)
      | none => none

/-- Rust `CollisionTree::insert` (lines 309-387), fueled. -/
def insertF : ℕ → CTree → ℤ → ℤ → CTree × InsRes
  | 0, t, _, _ => (t, .panic)
  | fuel + 1, t, px, py =>
    if px < t.x ∨ t.x + (t.width : ℤ) ≤ px ∨ py < t.y ∨ t.y + (t.height : ℤ) ≤ py then
      (t, .err)
    else if t.free_pixels = 0 then (t, .ok false)
    else
      match t.children with
      | some cs =>
        match insChildren (insertF fuel) cs px py with
        | some (cs', r) =>
          ({ t with
              children := some cs',
              free_pixels := if r = .ok true then t.free_pixels - 1 else t.free_pixels }, r)
        | none => (t, .panic)
      | none =>
        if LEAF_AREA < t.width * t.height then
          let cs := subdivide t.x t.y t.width t.height
          match insChildren (insertF fuel) cs px py with
          | some (cs', r) =>
            ({ t with
                children := some cs',
                free_pixels := if r = .ok true then t.free_pixels - 1 else t.free_pixels }, r)
          | none => ({ t with children := some cs }, .panic)
        else
          let g := t.grid.getD (fun _ => false)
          let i := ((px - t.x) + (py - t.y) * (t.width : ℤ)).toNat
          if g i then (t, .ok false)
          else
            ({ t with
                grid := some (fun j => if j = i then true else g j),
                free_pixels := t.free_pixels - 1 }, .ok true)

/-- Rust `CollisionTree::check_point` (lines 417-443), fueled. -/
def checkPointF : ℕ → CTree → ℤ → ℤ → Bool
  | 0, _, _, _ => false
  | fuel + 1, t, px, py =>
    if px < t.x ∨ t.x + (t.width : ℤ) ≤ px ∨ py < t.y ∨ t.y + (t.height : ℤ) ≤ py then
      false
    else if t.free_pixels = 0 then true
    else
      match t.grid with
      | some g => g ((px - t.x) + (py - t.y) * (t.width : ℤ)).toNat
      | none => (t.children.getD []).any fun c => checkPointF fuel c px py

/-- The cells `for x in x0..x1 { for y in y0..y1 }` of the grid loops, in
source iteration order. -/
def cellsZ (x0 x1 y0 y1 : ℤ) : List (ℤ × ℤ) :=
  (List.range (x1 - x0).toNat).flatMap fun i =>
    (List.range (y1 - y0).toNat).map fun j => ((x0 + i : ℤ), (y0 + j : ℤ))

/-- The clipped cell range a rectangle covers inside a node
(`self.x.max(x)..(self.x + self.width).min(x + width)` etc.). -/
def clipCells (t : CTree) (x y : ℤ) (w h : ℕ) : List (ℤ × ℤ) :=
  cellsZ (max t.x x) (min (t.x + (t.width : ℤ)) (x + (w : ℤ)))
    (max t.y y) (min (t.y + (t.height : ℤ)) (y + (h : ℤ)))

/-- Grid index of a cell, `(x - self.x) + (y - self.y) * self.width`. -/
def gridIdx (t : CTree) (p : ℤ × ℤ) : ℕ :=
  ((p.1 - t.x) + (p.2 - t.y) * (t.width : ℤ)).toNat

/-- Rust `CollisionTree::insert_rect` (lines 445-558), fueled.  The result is
`none` for `Err(())`; the out-of-domain test is performed before consuming
fuel, so it is fuel-independent. -/
def insertRectF : ℕ → CTree → ℤ → ℤ → ℕ → ℕ → CTree × Option ℕ
  | fuel, t, x, y, w, h =>
    if x + (w : ℤ) ≤ t.x ∨ t.x + (t.width : ℤ) < x ∨
        y + (h : ℤ) ≤ t.y ∨ t.y + (t.height : ℤ) < y then
      (t, none)
    else
      match fuel with
      | 0 => (t, some 0)
      | fuel + 1 =>
        if x ≤ t.x ∧ t.x + (t.width : ℤ) < x + (w : ℤ) ∧
            y ≤ t.y ∧ t.y + (t.height : ℤ) < y + (h : ℤ) then
          -- rectangle strictly covers the node: free_pixels zeroed wholesale
          let change := t.free_pixels
          if t.width * t.height ≤ LEAF_AREA then
            ({ t with free_pixels := 0, grid := some (fun _ => true) }, some change)
          else
            let cs := t.children.getD (subdivide t.x t.y t.width t.height)
            let cs' := cs.map fun c => (insertRectF fuel c x y w h).1
            ({ t with free_pixels := 0, children := some cs' }, some change)
        else
          if t.width * t.height ≤ LEAF_AREA then
            let g := t.grid.getD (fun _ => false)
            let st :=
              (clipCells t x y w h).foldl
                (fun (st : (ℕ → Bool) × ℕ × ℕ) p =>
                  let i := gridIdx t p
                  if st.1 i then st
                  else ((fun j => if j = i then true else st.1 j), st.2.1 - 1, st.2.2 + 1))
                (g, t.free_pixels, 0)
            ({ t with grid := some st.1, free_pixels := st.2.1 }, some st.2.2)
          else
            let cs := t.children.getD (subdivide t.x t.y t.width t.height)
            let st :=
              cs.foldl
                (fun (st : List CTree × ℕ) c =>
                  let r := insertRectF fuel c x y w h
                  (st.1 ++ [r.1], st.2 + (r.2.getD 0)))
                ([], 0)
            ({ t with children := some st.1, free_pixels := t.free_pixels - st.2 },
              some st.2)

/-- Rust `CollisionTree::remove_rect` (lines 560-615), fueled; result is
(tree, became_fully_empty, removed_count).  Note that in the full-cover
branch the source drops the children and the grid but does NOT reset
`free_pixels`; the embedding reproduces this faithfully. -/
def removeRectF : ℕ → CTree → ℤ → ℤ → ℕ → ℕ → CTree × Bool × ℕ
  | fuel, t, x, y, w, h =>
    if x + (w : ℤ) ≤ t.x ∨ t.x + (t.width : ℤ) < x ∨
        y + (h : ℤ) ≤ t.y ∨ t.y + (t.height : ℤ) < y then
      (t, false, 0)
    else
      match fuel with
      | 0 => (t, false, 0)
      | fuel + 1 =>
        if x ≤ t.x ∧ t.x + (t.width : ℤ) < x + (w : ℤ) ∧
            y ≤ t.y ∧ t.y + (t.height : ℤ) < y + (h : ℤ) then
          ({ t with children := none, grid := none },
            true, t.width * t.height - t.free_pixels)
        else
          match t.grid with
          | some g =>
            let st :=
              (clipCells t x y w h).foldl
                (fun (st : (ℕ → Bool) × ℕ × ℕ) p =>
                  let i := gridIdx t p
                  if st.1 i then
                    ((fun j => if j = i then false else st.1 j), st.2.1 + 1, st.2.2 + 1)
                  else st)
                (g, t.free_pixels, 0)
            ({ t with grid := some st.1, free_pixels := st.2.1 },
              st.2.1 = t.width * t.height, st.2.2)
          | none =>
            let st :=
              (t.children.getD []).foldl
                (fun (st : List CTree × Bool × ℕ) c =>
                  let r := removeRectF fuel c x y w h
                  (st.1 ++ [r.1], st.2.1 || !r.2.1, st.2.2 + r.2.2))
                ([], false, 0)
            ({ t with
                children := if st.2.1 then some st.1 else none,
                free_pixels := t.free_pixels + st.2.2 },
              !st.2.1, st.2.2)

/-- Rust `CollisionTree::check_rect` (lines 617-661), fueled. -/
def checkRectF : ℕ → CTree → ℤ → ℤ → ℕ → ℕ → Bool
  | 0, _, _, _, _, _ => false
  | fuel + 1, t, x, y, w, h =>
    if x + (w : ℤ) ≤ t.x ∨ t.x + (t.width : ℤ) < x ∨
        y + (h : ℤ) ≤ t.y ∨ t.y + (t.height : ℤ) < y then
      false
    else if t.free_pixels = 0 then true
    else if t.free_pixels = t.width * t.height then false
    else if (x ≤ t.x ∧ t.x + (t.width : ℤ) < x + (w : ℤ) ∧
        y ≤ t.y ∧ t.y + (t.height : ℤ) < y + (h : ℤ)) ∧
        t.free_pixels < t.width * t.height then
      true
    else
      match t.grid with
      | some g => (clipCells t x y w h).any fun p => g (gridIdx t p)
      | none => (t.children.getD []).any fun c => checkRectF fuel c x y w h

/-- Fuel passed by the public wrappers; exceeds the recursion depth of every
tree that the operations themselves construct. -/
def treeFuel (t : CTree) : ℕ := t.width + t.height + 1

/-- Public `insert`. -/
def insert (t : CTree) (px py : ℤ) : CTree × InsRes := insertF (treeFuel t) t px py

/-- Public `check_point`. -/
def checkPoint (t : CTree) (px py : ℤ) : Bool := checkPointF (treeFuel t) t px py

/-- Public `insert_rect`. -/
def insertRect (t : CTree) (x y : ℤ) (w h : ℕ) : CTree × Option ℕ :=
  insertRectF (treeFuel t) t x y w h

/-- Public `remove_rect`. -/
def removeRect (t : CTree) (x y : ℤ) (w h : ℕ) : CTree × Bool × ℕ :=
  removeRectF (treeFuel t) t x y w h

/-- Public `check_rect`. -/
def checkRect (t : CTree) (x y : ℤ) (w h : ℕ) : Bool :=
  checkRectF (treeFuel t) t x y w h

/-- Structural occupancy denotation: a pixel is solid iff the stored grid
bit for it is set, or some child holds it solid.  A node with neither grid
nor children denotes the fully-free area (the "newly created, fully free"
state of the data model); the `free_pixels` counter has no vote here. -/
def solidAtF : ℕ → CTree → ℤ → ℤ → Bool
  | 0, _, _, _ => false
  | fuel + 1, t, px, py =>
    if px < t.x ∨ t.x + (t.width : ℤ) ≤ px ∨ py < t.y ∨ t.y + (t.height : ℤ) ≤ py then
      false
    else
      match t.grid with
      | some g => g ((px - t.x) + (py - t.y) * (t.width : ℤ)).toNat
      | none => (t.children.getD []).any fun c => solidAtF fuel c px py

/-- Pixel-level occupancy with the canonical fuel. -/
def solidAt (t : CTree) (px py : ℤ) : Bool := solidAtF (treeFuel t) t px py

/-- Number of occupied pixels inside a node's own area. -/
def occupiedCount (t : CTree) : ℕ :=
  ((List.range t.width).flatMap fun i =>
    (List.range t.height).map fun j => ((t.x + i : ℤ), (t.y + j : ℤ))).countP
    fun p => solidAt t p.1 p.2

/-- True set-bit count of a dense leaf grid (all LEAF_SIZE * LEAF_SIZE
entries). -/
def gridBits (g : ℕ → Bool) : ℕ := (List.range LEAF_AREA).countP g

/-- The bounds of a node, as a tuple. -/
def bnds (c : CTree) : ℤ × ℤ × ℕ × ℕ := (c.x, c.y, c.width, c.height)

/-- Geometric well-formedness of a tree: every node is square with
4-aligned side (as produced by `CollisionTree::new`), a grid is only
present on nodes of at most leaf area, and children, when present, sit on
a node of more than leaf area without a grid and have exactly the bounds of
the canonical subdivision.  The occupancy payload (grid bits, `free_pixels`)
is unconstrained, so the predicate is preserved by all mutations. -/
inductive WF : CTree → Prop where
  | mk (t : CTree)
      (hsq : t.width = t.height)
      (hdvd : 4 ∣ t.width)
      (hgrid : ∀ g, t.grid = some g → t.width * t.height ≤ LEAF_AREA)
      (harea : ∀ cs, t.children = some cs → LEAF_AREA < t.width * t.height)
      (hgnone : ∀ cs, t.children = some cs → t.grid = none)
      (hmap : ∀ cs, t.children = some cs →
        cs.map bnds = (subdivide t.x t.y t.width t.height).map bnds)
      (hwfc : ∀ cs, t.children = some cs → ∀ c ∈ cs, WF c) : WF t

/-- Half-open rectangle overlap between a query rectangle and the tree's
domain: some pixel lies in both. -/
def overlapsDomain (t : CTree) (x y : ℤ) (w h : ℕ) : Prop :=
  max t.x x < min (t.x + (t.width : ℤ)) (x + (w : ℤ)) ∧
  max t.y y < min (t.y + (t.height : ℤ)) (y + (h : ℤ))

instance (t : CTree) (x y : ℤ) (w h : ℕ) : Decidable (overlapsDomain t x y w h) := by
  unfold overlapsDomain; infer_instance

/-- Trace exhibiting the stale-counter slip of `remove_rect` on a small
leaf tree: one pixel inserted, then a strictly covering remove. -/
def c1t0 : CTree := CTree.new 0 0 8 8

/-- The tree after `insert(0,0)`. -/
def c1t1 : CTree := (insert c1t0 0 0).1

/-- The tree after `remove_rect(-1,-1,10,10)` (full cover of the domain). -/
def c1t2 : CTree := (removeRect c1t1 (-1) (-1) 10 10).1

/-- Round-trip trace on a 128x128 tree: `insert_rect(0,0,66,66)`, an insert
outside that rectangle, then `remove_rect(0,0,66,66)`. -/
def c2t0 : CTree := CTree.new 0 0 128 128

/-- After `insert_rect(0,0,66,66)`. -/
def c2t1 : CTree := (insertRect c2t0 0 0 66 66).1

/-- After `insert(100,100)` (outside the 66x66 rectangle). -/
def c2t2 : CTree := (insert c2t1 100 100).1

/-- After `remove_rect(0,0,66,66)`. -/
def c2t3 : CTree := (removeRect c2t2 0 0 66 66).1

/-- A 128x64 tree right after `insert(0,0)` forced it to subdivide. -/
def c10t : CTree := (insert (CTree.new 0 0 128 64) 0 0).1

/-- A 64x128 (taller than wide) tree, fresh. -/
def c8t : CTree := CTree.new 0 0 64 128

/-- Rust `PotionType` (src/main.rs lines 666-670). -/
inductive PotionType where
  | Relative : ℤ → ℤ → PotionType
  | Absolute : Option ℤ → Option ℤ → PotionType
deriving DecidableEq

/-- The fields of `Sprite` (lines 78-93) that the physics and scale-change
code reads or writes; f32 fields are modeled as ℚ. -/
structure SpriteS where
  is_player : Bool
  collider : ℕ → Bool
  locX : ℚ
  locY : ℚ
  x_scale : ℕ
  y_scale : ℕ
  velX : ℚ
  velY : ℚ
  ground_contact : Bool
  jumping : Bool
  sleep_timer : ℚ
  potion_timer : Option ℚ
  pending_potions : List PotionType
  gravity : Bool

/-- Rust `as i32` truncation (toward zero) of an f32 value. -/
def truncZ (q : ℚ) : ℤ := if q < 0 then ⌈q⌉ else ⌊q⌋

/-- f32 `copysign`: the magnitude of the first argument with the sign of
the second; a nonnegative second argument (including +0.0) gives the
positive sign. -/
def copysignQ (mag v : ℚ) : ℚ := if v < 0 then -|mag| else |mag|

/-- The per-axis sweep step
`(scale as f32 / 8.0).min(1.0).min(velocity.abs()).max(1.0).copysign(velocity)`
(lines 885-894). -/
def stepOf (scale : ℕ) (v : ℚ) : ℚ :=
  copysignQ (max (min (min ((scale : ℚ) / 8) 1) |v|) 1) v

/-- The 16x16 collider cells in the source's scan order
(`for dx in 0..SPRITE_WIDTH { for dy in 0..SPRITE_WIDTH }`). -/
def cellList : List (ℕ × ℕ) :=
  (List.range SPRITE_WIDTH).flatMap fun dx =>
    (List.range SPRITE_WIDTH).map fun dy => (dx, dy)

/-- One collider scan of the sweep (lines 902-930), walking the given cells
at the candidate position (lx, ly): a cell solid in the rubble map sets the
in-rubble flag without blocking; the first cell solid in the terrain map
blocks and stops the scan.  Returns (blocked, rubble-seen-so-far). -/
def scanGo (cmap rmap : CTree) (sp : SpriteS) (lx ly : ℚ) :
    List (ℕ × ℕ) → Bool → Bool × Bool
  | [], rub => (false, rub)
  | c :: rest, rub =>
    if sp.collider (c.1 + c.2 * SPRITE_WIDTH) then
      let cx := truncZ lx + (c.1 : ℤ) * sp.x_scale
      let cy := truncZ ly + (c.2 : ℤ) * sp.y_scale
      if checkRect rmap cx cy sp.x_scale sp.y_scale then
        scanGo cmap rmap sp lx ly rest true
      else if checkRect cmap cx cy sp.x_scale sp.y_scale then (true, rub)
      else scanGo cmap rmap sp lx ly rest rub
    else scanGo cmap rmap sp lx ly rest rub

/-- Scan of the full collider at a candidate position. -/
def scanCells (cmap rmap : CTree) (sp : SpriteS) (lx ly : ℚ) : Bool × Bool :=
  scanGo cmap rmap sp lx ly cellList false

/-- State of the sweep loop: committed sprite position, candidate position,
remaining integer displacement per axis, and the accumulated flags. -/
structure SweepSt where
  locX : ℚ
  locY : ℚ
  candX : ℚ
  candY : ℚ
  vx : ℤ
  vy : ℤ
  blocked_x : Bool
  blocked_y : Bool
  in_rubble : Bool

/-- The `'outer: while` sweep loop (lines 896-938), fueled: while either
remaining displacement has magnitude ≥ 1, advance the candidate position by
one step (vertical axis takes precedence), scan the collider there, and
either record the block — on the axis whose displacement is being consumed
— and stop, leaving the committed position, or commit the candidate and
decrement the remaining displacement by the truncated step. -/
def sweepLoop (cmap rmap : CTree) (sp : SpriteS) (stepX stepY : ℚ) :
    ℕ → SweepSt → SweepSt
  | 0, st => st
  | fuel + 1, st =>
    if 1 ≤ st.vy.natAbs ∨ 1 ≤ st.vx.natAbs then
      let cX := if 1 ≤ st.vy.natAbs then st.candX else st.candX + stepX
      let cY := if 1 ≤ st.vy.natAbs then st.candY + stepY else st.candY
      let scan := scanCells cmap rmap sp cX cY
      let st' := { st with
                    candX := cX, candY := cY,
                    in_rubble := st.in_rubble || scan.2 }
      if scan.1 then
        if 1 ≤ st'.vx.natAbs then { st' with blocked_x := true }
        else { st' with blocked_y := true }
      else
        let st'' :=
          if 1 ≤ st'.vy.natAbs then { st' with vy := st'.vy - truncZ stepY }
          else { st' with vx := st'.vx - truncZ stepX }
        sweepLoop cmap rmap sp stepX stepY fuel { st'' with locX := cX, locY := cY }
    else st

/-- Ground-contact / jumping / vertical-velocity update after the sweep
(lines 944-954). -/
def contactUpdate (blocked_y falling : Bool) (sp : SpriteS) : SpriteS :=
  if blocked_y = false then
    if 1 ≤ |sp.velY| then { sp with ground_contact := false } else sp
  else
    let sp := if falling then { sp with ground_contact := true, jumping := false }
              else sp
    { sp with velY := 0 }

/-- Grounded horizontal friction (lines 955-961). -/
def frictionUpdate (fps : ℚ) (sp : SpriteS) : SpriteS :=
  if sp.ground_contact then
    if 0 ≤ sp.velX then { sp with velX := max (sp.velX - 1 / fps) 0 }
    else { sp with velX := min (sp.velX + 1 / fps) 0 }
  else sp

/-- Sleep-timer update (lines 962-966). -/
def sleepUpdate (fps : ℚ) (sp : SpriteS) : SpriteS :=
  if 1 < |sp.velX| ∨ 1 < |sp.velY| then { sp with sleep_timer := 0 }
  else { sp with sleep_timer := sp.sleep_timer + 1 / fps }

/-- The player-only corner-escape votes (lines 970-1001): each collider
cell overlapping terrain (and not shielded by rubble) votes ±1 per axis
according to the half of the collider it falls in. -/
def nudgeVotes (cmap rmap : CTree) (sp : SpriteS) : ℤ × ℤ :=
  cellList.foldl
    (fun d c =>
      if sp.collider (c.1 + c.2 * SPRITE_WIDTH) then
        let cx := truncZ sp.locX + (c.1 : ℤ) * sp.x_scale
        let cy := truncZ sp.locY + (c.2 : ℤ) * sp.y_scale
        if checkRect rmap cx cy sp.x_scale sp.y_scale then d
        else if checkRect cmap cx cy sp.x_scale sp.y_scale then
          ((if c.1 ≤ SPRITE_WIDTH / 2 then d.1 + 1 else d.1 - 1),
            (if c.2 ≤ SPRITE_WIDTH / 2 then d.2 + 1 else d.2 - 1))
        else d
      else d)
    (0, 0)

/-- The player-only corner-escape nudge (lines 970-1003): move by one
scaled pixel along the clamped crowd direction on each axis. -/
def nudgeUpdate (cmap rmap : CTree) (sp : SpriteS) : SpriteS :=
  if sp.is_player then
    let d := nudgeVotes cmap rmap sp
    { sp with
        locX := sp.locX + ((min (max d.1 (-1)) 1 * (sp.x_scale : ℤ) : ℤ) : ℚ),
        locY := sp.locY + ((min (max d.2 (-1)) 1 * (sp.y_scale : ℤ) : ℤ) : ℚ) }
  else sp

/-- The post-sweep per-entity pipeline (lines 944-1004): contact flags,
grounded friction, sleep timer, player corner-escape nudge, in source
order. -/
def postMoveUpdate (cmap rmap : CTree) (fps : ℚ) (blocked_y falling : Bool)
    (sp : SpriteS) : SpriteS :=
  nudgeUpdate cmap rmap (sleepUpdate fps (frictionUpdate fps
    (contactUpdate blocked_y falling sp)))

/-- Result of one physics step for one entity: the updated sprite plus the
sweep's internal flags and whether the source would clear the rubble map. -/
structure StepOut where
  sprite : SpriteS
  blocked_x : Bool
  blocked_y : Bool
  falling : Bool
  in_rubble : Bool
  rubble_cleared : Bool

/-- One physics step for a single non-culled entity (lines 869-1004):
gravity, the two-pass swept collision (vertical pass then horizontal pass),
the rubble-clear condition, the contact flags, grounded friction, the sleep
timer and the player corner-escape nudge. -/
def stepPhysSprite (cmap rmap : CTree) (sp0 : SpriteS) (fps : ℚ) : StepOut :=
  let sp := { sp0 with velY := sp0.velY + (if sp0.gravity then 17 / 5 / fps else 0) }
  let falling := decide (0 < sp.velY)
  let stepX := stepOf sp.x_scale sp.velX
  let stepY := stepOf sp.y_scale sp.velY
  let vy0 := truncZ (sp.velY * (sp.y_scale : ℚ))
  let vx0 := truncZ (sp.velX * (sp.x_scale : ℚ))
  let st1 := sweepLoop cmap rmap sp stepX stepY (vy0.natAbs + 1)
    { locX := sp.locX, locY := sp.locY, candX := sp.locX, candY := sp.locY,
      vx := 0, vy := vy0, blocked_x := false, blocked_y := false,
      in_rubble := false }
  let st2 := sweepLoop cmap rmap sp stepX stepY (vx0.natAbs + 1)
    { st1 with candX := st1.locX, candY := st1.locY, vx := vx0, vy := 0 }
  let rc := sp.is_player && !st2.in_rubble
  let sp1 := { sp with locX := st2.locX, locY := st2.locY }
  { sprite := postMoveUpdate cmap rmap fps st2.blocked_y falling sp1,
    blocked_x := st2.blocked_x, blocked_y := st2.blocked_y,
    falling := falling, in_rubble := st2.in_rubble, rubble_cleared := rc }

/-- Left-to-right fold of the queued potions onto the current scales
(lines 1120-1135): `Relative` adds per axis, `Absolute` overrides the
axes it carries, later entries winning. -/
def foldPotions : ℤ → ℤ → List PotionType → ℤ × ℤ
  | xs, ys, [] => (xs, ys)
  | xs, ys, .Relative dx dy :: rest => foldPotions (xs + dx) (ys + dy) rest
  | xs, ys, .Absolute ox oy :: rest => foldPotions (ox.getD xs) (oy.getD ys) rest

/-- Result of one evaluation of the scale-change block for one character. -/
structure PotionOut where
  sprite : SpriteS
  applied : Bool
  final_out : Bool

/-- The per-character scale-change block of `step_physics`
(lines 1110-1164): decrement the countdown; bail out while it is still
positive (unless the final flag is latched); drop the timer once it lapsed
by more than one full duration; fold and drain the queued potions; latch
the final flag from the end-sequence flag; compute the per-axis deltas
(forced to +20 under the final flag); bail out on a zero net delta;
otherwise apply the clamped scales and re-anchor the position: centered
horizontally, foot-anchored vertically, plus the hard-coded extra 8-pixel
upward offset of line 1164. -/
def potionTick (end_seq final0 : Bool) (fps : ℚ) (sp : SpriteS) : PotionOut :=
  match sp.potion_timer with
  | none => { sprite := sp, applied := false, final_out := final0 }
  | some time0 =>
    let time := time0 - 1 / fps
    if 0 < time ∧ final0 = false then
      { sprite := { sp with potion_timer := some time }, applied := false,
        final_out := final0 }
    else
      let spA := { sp with potion_timer := if time < -1 then none else some time }
      let fold := foldPotions spA.x_scale spA.y_scale spA.pending_potions
      let spB := { spA with pending_potions := [] }
      let final := final0 || end_seq
      let xd : ℤ :=
        if final then 20 else min (max fold.1 0) (MAX_SCALE : ℤ) - spB.x_scale
      let yd : ℤ :=
        if final then 20 else min (max fold.2 0) (MAX_SCALE : ℤ) - spB.y_scale
      if xd = 0 ∧ yd = 0 then { sprite := spB, applied := false, final_out := final }
      else
        let iw : ℤ := (SPRITE_WIDTH : ℤ) * spB.x_scale
        let ih : ℤ := (SPRITE_WIDTH : ℤ) * spB.y_scale
        let nxs : ℤ := min (max ((spB.x_scale : ℤ) + xd) 1) (MAX_SCALE : ℤ)
        let nys : ℤ := min (max ((spB.y_scale : ℤ) + yd) 1) (MAX_SCALE : ℤ)
        let spC := { spB with
            x_scale := nxs.toNat, y_scale := nys.toNat,
            locX := spB.locX - (((SPRITE_WIDTH : ℤ) * nxs - iw : ℤ) : ℚ) / 2,
            locY := spB.locY - (((SPRITE_WIDTH : ℤ) * nys - ih : ℤ) : ℚ) - 8 }
        { sprite := spC, applied := true, final_out := final }

/-- Terrain for the grounding scenario: a 64x64 leaf tree whose single
solid pixel is (5,9). -/
def c9cmap : CTree := (insert (CTree.new 0 0 64 64) 5 9).1

/-- Empty rubble map for the grounding scenario. -/
def c9rmap : CTree := CTree.new 0 0 64 64

/-- A gravity-enabled character at rest whose single solid collider cell at
scale 1 sits at (5,8), one scaled pixel above the solid terrain pixel. -/
def c9sprite : SpriteS :=
  { is_player := false, collider := fun i => i == 0, locX := 5, locY := 8,
    x_scale := 1, y_scale := 1, velX := 0, velY := 0, ground_contact := false,
    jumping := true, sleep_timer := 0, potion_timer := none,
    pending_potions := [], gravity := true }

/-- A character with scales (2,3) who picked up the relative potions
(+10,+10) and (+5,0) within the countdown window now expiring. -/
def c4sprite : SpriteS :=
  { is_player := false, collider := fun i => i == 0, locX := 0, locY := 0,
    x_scale := 2, y_scale := 3, velX := 0, velY := 0, ground_contact := true,
    jumping := false, sleep_timer := 0, potion_timer := some 1,
    pending_potions := [.Relative 10 10, .Relative 5 0], gravity := true }

/-- C5 is refuted at a concrete input: a character at y = 100 with scales
(2,2) and one queued (+0,+1) relative potion; at expiry the height delta is
16, but the top y coordinate moves to 76 = 100 - 16 - 8 (the hard-coded
line 1164 offset), not to the claimed 100 - 16 = 84 — the feet end up 8
world pixels higher, not planted. -/
def c5sprite : SpriteS :=
  { is_player := false, collider := fun i => i == 0, locX := 50, locY := 100,
    x_scale := 2, y_scale := 2, velX := 0, velY := 0, ground_contact := true,
    jumping := false, sleep_timer := 0, potion_timer := some 1,
    pending_potions := [.Relative 0 1], gravity := true }


/-- C1: the free-pixel invariant is violated by the code.  After the call
sequence `insert(0,0); remove_rect(-1,-1,10,10)` on a tree with domain
(0,0,8,8), the root reports `free_pixels = 63` although its 64-pixel area
holds 0 occupied pixels: `remove_rect`'s full-cover branch (lines 568-576)
drops the grid and children but never resets `free_pixels`, so
`free_pixels = width*height - occupied` fails. -/
theorem C1_invariant_violated :
    c1t2.free_pixels = 63 ∧ c1t2.width * c1t2.height = 64 ∧
      occupiedCount c1t2 = 0 ∧ c1t2.grid = none ∧ c1t2.children = none := by
  refine ⟨by decide, by decide, by decide, rfl, rfl⟩

/-- C2: the insert/remove round trip is broken by the code.  On a domain
(0,0,128,128): `insert_rect(0,0,66,66)`, then `insert(100,100)` (outside the
rectangle), then `remove_rect(0,0,66,66)` leaves
`check_rect(10,10,5,5) = true` although (10,10,5,5) is a sub-rectangle of
(0,0,66,66) and nothing was inserted inside (0,0,66,66) in between: the
fully-covered child keeps its stale `free_pixels = 0`, which short-circuits
`check_rect` to true. -/
theorem C2_round_trip_fails :
    checkRect c2t3 10 10 5 5 = true ∧
      -- (10,10,5,5) is a sub-rectangle of the removed rectangle (0,0,66,66)
      ((0 : ℤ) ≤ 10 ∧ (10 : ℤ) + 5 ≤ 0 + 66) ∧
      -- the in-between insert lands outside the removed rectangle
      ¬ ((0 : ℤ) ≤ 100 ∧ (100 : ℤ) < 0 + 66) ∧
      -- no pixel of that sub-rectangle is actually occupied
      solidAt c2t3 10 10 = false := by
  refine ⟨by decide, by decide, by decide, by decide⟩

/-- C3: after the same trace, `check_point(10,10)` returns true although the
pixel (10,10) was covered by `insert_rect(0,0,66,66)` and subsequently
covered by `remove_rect(0,0,66,66)` with no later insert covering it; the
structural occupancy of the final tree confirms the pixel is not solid. -/
theorem C3_check_point_stale :
    checkPoint c2t3 10 10 = true ∧ solidAt c2t3 10 10 = false ∧
      -- the honest part of the same tree still answers correctly
      checkPoint c2t3 65 10 = false ∧ checkPoint c2t3 100 100 = true := by
  refine ⟨by decide, by decide, by decide, by decide⟩

/-- C7 is refuted twice at concrete inputs: (a) the rectangle (8,0,4,4) does
not overlap the domain (0,0,8,8) at all, yet `insert_rect` returns
`Ok(0)` rather than `Err` (the boundary test uses `x > X+W`, not `>=`);
(b) on the stale tree `c1t2` the overlapping rectangle (-1,-1,10,10) returns
`Ok(63)` although 64 pixels become newly solid. -/
theorem C7_counterexample :
    ((insertRect (CTree.new 0 0 8 8) 8 0 4 4).2 = some 0 ∧
      ¬ overlapsDomain (CTree.new 0 0 8 8) 8 0 4 4) ∧
    ((insertRect c1t2 (-1) (-1) 10 10).2 = some 63 ∧
      overlapsDomain c1t2 (-1) (-1) 10 10 ∧
      occupiedCount (insertRect c1t2 (-1) (-1) 10 10).1 = 64 ∧
      occupiedCount c1t2 = 0) := by
  exact ⟨⟨by decide, by decide⟩, by decide, by decide, by decide, by decide⟩

/-- C8 is refuted at a concrete input: on the fresh (hence entirely free)
tree with domain (0,0,64,128), the in-domain point (0,96) is reported free
by `check_point`, yet `insert(0,96)` hits the `unreachable!()` branch (the
subdivision's fourth child gets height `width/2 = 32`, leaving rows 96-127
covered by no child), so the first call aborts instead of returning
`Ok(true)`. -/
theorem C8_counterexample :
    inNode c8t 0 96 ∧ checkPoint c8t 0 96 = false ∧
      (insert c8t 0 96).2 = InsRes.panic := by
  refine ⟨by decide, by decide, by decide⟩

/-- C10 is refuted at a concrete input: when `insert(0,0)` subdivides the
node with bounds (0,0,128,64), the fourth child it creates has bounds
(0,32,64,64) — its height is `width/2`, not `height/2` — so the point
(0,80) lies in a child but outside the parent: the children do not
partition the parent's area. -/
theorem C10_counterexample :
    ((c10t.children.getD []).any fun c => decide (inNode c 0 80)) = true ∧
      ¬ inNode c10t 0 80 ∧
      (c10t.children.getD []).length = 4 := by
  refine ⟨by decide, by decide, by decide⟩

/-- The out-of-domain answer of `insert_rect` depends only on the
comparison of the rectangle with the root bounds (lines 452-458): every
other branch returns `Ok`. -/
theorem insertRectF_isErr (fuel : ℕ) (t : CTree) (x y : ℤ) (w h : ℕ) :
    (insertRectF fuel t x y w h).2 = none ↔
      (x + (w : ℤ) ≤ t.x ∨ t.x + (t.width : ℤ) < x ∨
        y + (h : ℤ) ≤ t.y ∨ t.y + (t.height : ℤ) < y) := by
  rw [insertRectF.eq_def]
  dsimp only
  by_cases hcond : (x + (w : ℤ) ≤ t.x ∨ t.x + (t.width : ℤ) < x ∨
      y + (h : ℤ) ≤ t.y ∨ t.y + (t.height : ℤ) < y)
  · rw [if_pos hcond]
    simpa using hcond
  · rw [if_neg hcond]
    refine iff_of_false ?_ hcond
    cases fuel with
    | zero => simp
    | succ fuel =>
      dsimp only
      split
      · split <;> simp
      · split <;> simp

/-- C7 amended: `insert_rect(x,y,w,h)` returns `Err` iff the rectangle
fails the code's boundary test `x+w ≤ X ∨ x > X+W ∨ y+h ≤ Y ∨ y > Y+H`;
consequently every rectangle that truly overlaps the domain returns `Ok`,
while certain non-overlapping rectangles (touching the right/bottom domain
edge, or degenerate) also return `Ok` instead of `Err`. -/
theorem C7_amended (t : CTree) (x y : ℤ) (w h : ℕ) :
    ((insertRect t x y w h).2 = none ↔
      (x + (w : ℤ) ≤ t.x ∨ t.x + (t.width : ℤ) < x ∨
        y + (h : ℤ) ≤ t.y ∨ t.y + (t.height : ℤ) < y)) ∧
    (overlapsDomain t x y w h → (insertRect t x y w h).2.isSome = true) := by
  refine ⟨insertRectF_isErr _ t x y w h, fun hov => ?_⟩
  obtain ⟨hx, hy⟩ := hov
  rw [max_lt_iff, lt_min_iff] at hx hy
  rcases hs : (insertRect t x y w h).2 with _ | n
  · exfalso
    rw [insertRect, insertRectF_isErr] at hs
    omega
  · rfl

/-- Witness for C7_amended at a concrete overlapping rectangle. -/
theorem C7_amended_witness :
    ((insertRect (CTree.new 0 0 8 8) 2 2 2 2).2).isSome = true := by
  have h := C7_amended (CTree.new 0 0 8 8) 2 2 2 2
  exact h.2 (by decide)

/-- Quantization to a multiple of 4 fixes multiples of 4. -/
theorem quant_4mul (m : ℕ) : quant (4 * m) = 4 * m := by
  unfold quant; omega

/-- C10 amended: when the parent is square with side divisible by 8 (so the
halved child dimensions survive the 4-alignment of `CollisionTree::new`
unchanged and the fourth child's `width/2` height coincides with
`height/2`), the four children built at subdivision exactly partition the
parent's area: every point of the parent lies in exactly one child and
points outside the parent lie in none.  For other dimensions the partition
can fail (see the counterexample). -/
theorem C10_amended (x y : ℤ) (s : ℕ) (h8 : 8 ∣ s) (px py : ℤ) :
    (subdivide x y s s).countP (fun c => decide (inNode c px py)) =
      if x ≤ px ∧ px < x + (s : ℤ) ∧ y ≤ py ∧ py < y + (s : ℤ) then 1 else 0 := by
  obtain ⟨k, rfl⟩ := h8
  have h2 : 8 * k / 2 = 4 * k := by omega
  simp only [subdivide, CTree.new, h2, quant_4mul, List.countP_cons, List.countP_nil,
    inNode, decide_eq_true_eq]
  split_ifs <;> push_cast at * <;> omega

/-- Witness for C10_amended: the subdivision of a 128-sided square node,
evaluated at one interior point. -/
theorem C10_amended_witness :
    (subdivide 0 0 128 128).countP (fun c => decide (inNode c 100 100)) =
      if (0 : ℤ) ≤ 100 ∧ (100 : ℤ) < 0 + ((128 : ℕ) : ℤ) ∧
          (0 : ℤ) ≤ 100 ∧ (100 : ℤ) < 0 + ((128 : ℕ) : ℤ) then 1 else 0 :=
  C10_amended 0 0 128 ⟨16, rfl⟩ 100 100

/-- C6 is refuted at a concrete input: with per-axis scale 1 and velocity
5, the sweep step is 1 whole world pixel, which exceeds the claimed upper
bound scale/8 = 1/8. -/
theorem C6_counterexample :
    stepOf 1 (5 : ℚ) = 1 ∧ ¬ (|stepOf 1 (5 : ℚ)| ≤ (1 : ℚ) / 8) := by
  constructor <;> norm_num [stepOf, copysignQ, abs]

/-- C6 amended: the `.min(1.0)` before the `.max(1.0)` collapses the step
formula, so each per-increment step of the collision sweep is exactly one
world pixel, signed by the velocity component of that axis (nonnegative
velocity, including 0, gives +1). -/
theorem C6_amended (scale : ℕ) (v : ℚ) :
    stepOf scale v = if v < 0 then -1 else 1 := by
  unfold stepOf copysignQ
  have h1 : min (min ((scale : ℚ) / 8) 1) |v| ≤ 1 :=
    le_trans (min_le_left _ _) (min_le_right _ _)
  rw [max_eq_right h1]
  split <;> norm_num

/-- Projection fact: `nudgeUpdate` only moves the position. -/
theorem nudgeUpdate_ground_contact (c r : CTree) (s : SpriteS) :
    (nudgeUpdate c r s).ground_contact = s.ground_contact := by
  unfold nudgeUpdate; split <;> rfl

/-- Projection fact: `nudgeUpdate` leaves the jumping flag alone. -/
theorem nudgeUpdate_jumping (c r : CTree) (s : SpriteS) :
    (nudgeUpdate c r s).jumping = s.jumping := by
  unfold nudgeUpdate; split <;> rfl

/-- Projection fact: `nudgeUpdate` leaves the vertical velocity alone. -/
theorem nudgeUpdate_velY (c r : CTree) (s : SpriteS) :
    (nudgeUpdate c r s).velY = s.velY := by
  unfold nudgeUpdate; split <;> rfl

/-- Projection fact: `sleepUpdate` only touches the sleep timer. -/
theorem sleepUpdate_ground_contact (fps : ℚ) (s : SpriteS) :
    (sleepUpdate fps s).ground_contact = s.ground_contact := by
  unfold sleepUpdate; split <;> rfl

/-- Projection fact: `sleepUpdate` leaves the jumping flag alone. -/
theorem sleepUpdate_jumping (fps : ℚ) (s : SpriteS) :
    (sleepUpdate fps s).jumping = s.jumping := by
  unfold sleepUpdate; split <;> rfl

/-- Projection fact: `sleepUpdate` leaves the vertical velocity alone. -/
theorem sleepUpdate_velY (fps : ℚ) (s : SpriteS) :
    (sleepUpdate fps s).velY = s.velY := by
  unfold sleepUpdate; split <;> rfl

/-- Projection fact: `frictionUpdate` only touches the horizontal velocity. -/
theorem frictionUpdate_ground_contact (fps : ℚ) (s : SpriteS) :
    (frictionUpdate fps s).ground_contact = s.ground_contact := by
  unfold frictionUpdate; split
  · split <;> rfl
  · rfl

/-- Projection fact: `frictionUpdate` leaves the jumping flag alone. -/
theorem frictionUpdate_jumping (fps : ℚ) (s : SpriteS) :
    (frictionUpdate fps s).jumping = s.jumping := by
  unfold frictionUpdate; split
  · split <;> rfl
  · rfl

/-- Projection fact: `frictionUpdate` leaves the vertical velocity alone. -/
theorem frictionUpdate_velY (fps : ℚ) (s : SpriteS) :
    (frictionUpdate fps s).velY = s.velY := by
  unfold frictionUpdate; split
  · split <;> rfl
  · rfl

/-- Behavior of the post-sweep pipeline with respect to ground contact,
jumping and vertical velocity, for arbitrary sweep outcomes. -/
theorem postMove_spec (cmap rmap : CTree) (fps : ℚ) (b f : Bool) (s : SpriteS) :
    ((postMoveUpdate cmap rmap fps b f s).ground_contact = true →
        s.ground_contact = false → b = true ∧ f = true) ∧
    (b = true → f = true →
        (postMoveUpdate cmap rmap fps b f s).ground_contact = true ∧
          (postMoveUpdate cmap rmap fps b f s).jumping = false ∧
          (postMoveUpdate cmap rmap fps b f s).velY = 0) ∧
    (b = false → 1 ≤ |(postMoveUpdate cmap rmap fps b f s).velY| →
        (postMoveUpdate cmap rmap fps b f s).ground_contact = false) := by
  unfold postMoveUpdate
  simp only [nudgeUpdate_ground_contact, nudgeUpdate_jumping, nudgeUpdate_velY,
    sleepUpdate_ground_contact, sleepUpdate_jumping, sleepUpdate_velY,
    frictionUpdate_ground_contact, frictionUpdate_jumping, frictionUpdate_velY]
  unfold contactUpdate
  cases b <;> cases f <;> simp <;> split <;> simp_all

/-- C9: in every physics tick (a) the step turns ground_contact on only if
the vertical sweep was blocked while the entity was falling (velocity.y > 0
after gravity, before the sweep); (b) when the vertical sweep is blocked
during a fall, ground_contact is set, the jumping flag is cleared and the
vertical velocity becomes 0; (c) when the vertical sweep is unblocked and
the vertical velocity magnitude is at least 1, ground_contact is
cleared. -/
theorem C9_ground_contact (cmap rmap : CTree) (sp : SpriteS) (fps : ℚ) :
    ((stepPhysSprite cmap rmap sp fps).sprite.ground_contact = true →
        sp.ground_contact = false →
        (stepPhysSprite cmap rmap sp fps).blocked_y = true ∧
          (stepPhysSprite cmap rmap sp fps).falling = true) ∧
    ((stepPhysSprite cmap rmap sp fps).blocked_y = true →
        (stepPhysSprite cmap rmap sp fps).falling = true →
        (stepPhysSprite cmap rmap sp fps).sprite.ground_contact = true ∧
          (stepPhysSprite cmap rmap sp fps).sprite.jumping = false ∧
          (stepPhysSprite cmap rmap sp fps).sprite.velY = 0) ∧
    ((stepPhysSprite cmap rmap sp fps).blocked_y = false →
        1 ≤ |(stepPhysSprite cmap rmap sp fps).sprite.velY| →
        (stepPhysSprite cmap rmap sp fps).sprite.ground_contact = false) := by
  unfold stepPhysSprite
  dsimp only
  exact postMove_spec cmap rmap fps _ _ _

/-- Witness for C9_ground_contact, instantiated at the spec's scenario:
the resting character one scaled pixel above solid terrain is blocked
falling on the first tick whose sweep reaches the block (fps = 1, so the
gravity increment alone yields a displacement of 3 pixels), and comes out
with ground_contact = true, velocity.y = 0 and the jumping flag cleared. -/
theorem C9_ground_contact_witness :
    (stepPhysSprite c9cmap c9rmap c9sprite 1).sprite.ground_contact = true ∧
      (stepPhysSprite c9cmap c9rmap c9sprite 1).sprite.velY = 0 ∧
      (stepPhysSprite c9cmap c9rmap c9sprite 1).sprite.jumping = false := by
  have h := (C9_ground_contact c9cmap c9rmap c9sprite 1).2.1
    (by decide) (by decide)
  exact ⟨h.1, h.2.2, h.2.1⟩

/-- C4: at countdown expiry (with neither global override flag set), the
queued potions are folded left-to-right by `foldPotions` — `Relative`
deltas add per axis, `Absolute` entries override their axes with later
entries winning — the whole queue is drained, and each axis's new scale is
`clamp(old scale + net delta, 1, MAX_SCALE)` (equivalently the clamp of the
folded result, since old + net delta = folded result); the position/scale
assignment happens exactly once, at this expiry. -/
theorem C4_potion_fold (sp : SpriteS) (fps : ℚ) (T : ℚ)
    (htimer : sp.potion_timer = some T) (hexp : T - 1 / fps ≤ 0)
    (hx1 : 1 ≤ sp.x_scale) (hy1 : 1 ≤ sp.y_scale) :
    (potionTick false false fps sp).sprite.x_scale =
      (min (max (foldPotions (sp.x_scale : ℤ) (sp.y_scale : ℤ)
        sp.pending_potions).1 1) (MAX_SCALE : ℤ)).toNat ∧
    (potionTick false false fps sp).sprite.y_scale =
      (min (max (foldPotions (sp.x_scale : ℤ) (sp.y_scale : ℤ)
        sp.pending_potions).2 1) (MAX_SCALE : ℤ)).toNat ∧
    (potionTick false false fps sp).sprite.pending_potions = [] := by
  unfold potionTick
  rw [htimer]
  dsimp only
  have hbail : ¬ (0 < T - 1 / fps ∧ (false : Bool) = false) :=
    fun hc => absurd hc.1 (not_lt.mpr hexp)
  rw [if_neg hbail]
  simp only [Bool.or_self, Bool.false_eq_true, if_false]
  generalize hfold : foldPotions (sp.x_scale : ℤ) (sp.y_scale : ℤ) sp.pending_potions = f
  split
  all_goals split
  all_goals refine ⟨?_, ?_, rfl⟩
  all_goals dsimp only
  all_goals unfold MAX_SCALE at *
  all_goals omega

/-- Witness for C4_potion_fold at the spec's scenario: the two relative
potions (+10,+10) and (+5,0) are applied as one single (+15,+10) change at
expiry — scales (2,3) become (17,13) and the queue is emptied. -/
theorem C4_potion_fold_witness :
    (potionTick false false 1 c4sprite).sprite.x_scale = 17 ∧
      (potionTick false false 1 c4sprite).sprite.y_scale = 13 ∧
      (potionTick false false 1 c4sprite).sprite.pending_potions = [] := by
  have h := C4_potion_fold c4sprite 1 1 rfl (by norm_num) (by decide) (by decide)
  refine ⟨?_, ?_, h.2.2⟩
  · rw [h.1]; decide
  · rw [h.2.1]; decide

/-- The concrete refutation of C5's y-anchoring equation. -/
theorem C5_counterexample :
    (potionTick false false 1 c5sprite).sprite.y_scale = 3 ∧
      (potionTick false false 1 c5sprite).sprite.locY = 76 ∧
      c5sprite.locY - ((16 * 3 - 16 * 2 : ℤ) : ℚ) = 84 ∧
      (76 : ℚ) ≠ 84 := by
  refine ⟨by decide, by decide, by norm_num [c5sprite], by norm_num⟩

/-- C5 amended: whenever a nonzero scale change is applied, the x position
decreases by exactly half the width delta (horizontal centering), and the
top y coordinate decreases by exactly the height delta PLUS a hard-coded
extra 8 world pixels (the line 1164 offset), so the feet rise by 8 pixels
rather than staying at the same world height. -/
theorem C5_anchoring (sp : SpriteS) (fps : ℚ) (T : ℚ)
    (htimer : sp.potion_timer = some T) (hexp : T - 1 / fps ≤ 0)
    (happ : (potionTick false false fps sp).applied = true) :
    (potionTick false false fps sp).sprite.locX =
      sp.locX - (((SPRITE_WIDTH : ℤ) * ((potionTick false false fps sp).sprite.x_scale : ℤ)
        - (SPRITE_WIDTH : ℤ) * (sp.x_scale : ℤ) : ℤ) : ℚ) / 2 ∧
    (potionTick false false fps sp).sprite.locY =
      sp.locY - (((SPRITE_WIDTH : ℤ) * ((potionTick false false fps sp).sprite.y_scale : ℤ)
        - (SPRITE_WIDTH : ℤ) * (sp.y_scale : ℤ) : ℤ) : ℚ) - 8 := by
  unfold potionTick at happ ⊢
  rw [htimer] at happ ⊢
  dsimp only at happ ⊢
  have hbail : ¬ (0 < T - 1 / fps ∧ (false : Bool) = false) :=
    fun hc => absurd hc.1 (not_lt.mpr hexp)
  rw [if_neg hbail] at happ ⊢
  simp only [Bool.or_self, Bool.false_eq_true, if_false] at happ ⊢
  split at happ
  all_goals try (dsimp only at happ; simp at happ)
  all_goals rename_i hzero
  all_goals rw [if_neg hzero]
  all_goals dsimp only
  all_goals constructor
  all_goals congr 1
  all_goals congr 1
  all_goals congr 1
  all_goals unfold MAX_SCALE SPRITE_WIDTH
  all_goals omega

/-- Witness for C5_anchoring at the c5sprite scenario. -/
theorem C5_anchoring_witness :
    (potionTick false false 1 c5sprite).sprite.locX =
      c5sprite.locX - (((SPRITE_WIDTH : ℤ) *
        ((potionTick false false 1 c5sprite).sprite.x_scale : ℤ)
        - (SPRITE_WIDTH : ℤ) * (c5sprite.x_scale : ℤ) : ℤ) : ℚ) / 2 ∧
    (potionTick false false 1 c5sprite).sprite.locY =
      c5sprite.locY - (((SPRITE_WIDTH : ℤ) *
        ((potionTick false false 1 c5sprite).sprite.y_scale : ℤ)
        - (SPRITE_WIDTH : ℤ) * (c5sprite.y_scale : ℤ) : ℤ) : ℚ) - 8 :=
  C5_anchoring c5sprite 1 1 rfl (by norm_num) (by decide)

/-- Membership `inNode` depends only on the bounds of the node. -/
theorem inNode_of_bnds {c c' : CTree} (h : bnds c' = bnds c) (px py : ℤ) :
    inNode c' px py ↔ inNode c px py := by
  unfold bnds at h
  have h1 : c'.x = c.x := congrArg Prod.fst h
  have h2 : c'.y = c.y := congrArg (fun p => p.2.1) h
  have h3 : c'.width = c.width := congrArg (fun p => p.2.2.1) h
  have h4 : c'.height = c.height := congrArg (fun p => p.2.2.2) h
  unfold inNode
  rw [h1, h2, h3, h4]

/-- The result of the child loop of `insert` comes from a child that
contains the point. -/
theorem insChildren_res (ins : CTree → ℤ → ℤ → CTree × InsRes) (px py : ℤ) :
    ∀ cs cs' r, insChildren ins cs px py = some (cs', r) →
      ∃ c ∈ cs, inNode c px py ∧ r = (ins c px py).2 := by
  intro cs
  induction cs with
  | nil => intro cs' r h; simp [insChildren] at h
  | cons c rest ih =>
    intro cs' r h
    unfold insChildren at h
    split at h
    · rename_i hc
      simp only [Option.some.injEq, Prod.ext_iff] at h
      exact ⟨c, List.mem_cons_self c rest, hc, h.2.symm⟩
    · rename_i hc
      cases hrec : insChildren ins rest px py with
      | none => rw [hrec] at h; cases h
      | some pr =>
        rw [hrec] at h
        obtain ⟨rest', r'⟩ := pr
        simp only [Option.some.injEq, Prod.ext_iff] at h
        obtain ⟨c₀, hmem, hin, hr⟩ := ih rest' r' hrec
        exact ⟨c₀, List.mem_cons_of_mem c hmem, hin, by rw [← h.2]; exact hr⟩

/-- Totality: `insert` never returns `Err` on a point inside the node's bounds, at
any fuel: `Err` is produced only by the leading bounds check. -/
theorem insertF_ne_err : ∀ fuel t px py, inNode t px py →
    (insertF fuel t px py).2 ≠ InsRes.err := by
  intro fuel
  induction fuel with
  | zero => intro t px py _; simp [insertF]
  | succ fuel ih =>
    intro t px py hin
    obtain ⟨h1, h2, h3, h4⟩ := hin
    rw [insertF]
    rw [if_neg (by push_neg; exact ⟨h1, h2, h3, h4⟩)]
    split
    · simp
    · split
      · split
        · rename_i heq
          obtain ⟨c, _, hinc, hr⟩ := insChildren_res (insertF fuel) px py _ _ _ heq
          simpa [hr] using ih c px py hinc
        · simp
      · dsimp only
        split
        · try dsimp only
          split
          · rename_i heq
            obtain ⟨c, _, hinc, hr⟩ := insChildren_res (insertF fuel) px py _ _ _ heq
            simpa [hr] using ih c px py hinc
          · simp
        · try dsimp only
          split <;> simp

/-- Coverage of a square, 4-aligned node by its canonical subdivision:
every point of the node lies in at least one child. -/
theorem subdivide_covers (x y : ℤ) (s : ℕ) (hdvd : 4 ∣ s) (px py : ℤ)
    (hx1 : x ≤ px) (hx2 : px < x + (s : ℤ))
    (hy1 : y ≤ py) (hy2 : py < y + (s : ℤ)) :
    ∃ c ∈ subdivide x y s s, inNode c px py := by
  obtain ⟨m, rfl⟩ := hdvd
  have hm : (4 * m) / 2 = 2 * m := by omega
  have hq : 2 * m ≤ quant (2 * m) := by unfold quant; omega
  by_cases hpx : px < x + ((2 * m : ℕ) : ℤ) <;> by_cases hpy : py < y + ((2 * m : ℕ) : ℤ)
  · refine ⟨CTree.new x y (4 * m / 2) (4 * m / 2), by simp [subdivide], ?_⟩
    unfold inNode CTree.new
    dsimp only
    rw [hm]
    push_cast at *
    omega
  · refine ⟨CTree.new x (y + ((4 * m / 2 : ℕ) : ℤ)) (4 * m / 2) (4 * m / 2),
      by simp [subdivide], ?_⟩
    unfold inNode CTree.new
    dsimp only
    rw [hm]
    unfold quant at *
    push_cast at *
    omega
  · refine ⟨CTree.new (x + ((4 * m / 2 : ℕ) : ℤ)) y (4 * m / 2) (4 * m / 2),
      by simp [subdivide], ?_⟩
    unfold inNode CTree.new
    dsimp only
    rw [hm]
    unfold quant at *
    push_cast at *
    omega
  · refine ⟨CTree.new (x + ((4 * m / 2 : ℕ) : ℤ)) (y + ((4 * m / 2 : ℕ) : ℤ))
      (4 * m / 2) (4 * m / 2), by simp [subdivide], ?_⟩
    unfold inNode CTree.new
    dsimp only
    rw [hm]
    unfold quant at *
    push_cast at *
    omega

/-- A structureless node with a nonzero free counter answers `check_point`
false at every fuel. -/
theorem checkPointF_structureless (fuel : ℕ) (t : CTree) (px py : ℤ)
    (hgr : t.grid = none) (hch : t.children = none) (hfp : t.free_pixels ≠ 0) :
    checkPointF fuel t px py = false := by
  cases fuel with
  | zero => rfl
  | succ fuel =>
    rw [checkPointF]
    split
    · rfl
    · rw [hgr, hch]
      rfl

/-- The child loop of `insert`, run twice: if some child contains the point
and every containing child inserts cleanly (Ok(true) then Ok(false), with
unchanged bounds and an unchanged tree on the second call), then the loop
returns Ok(true) with the updated list, and re-running it on the updated
list returns Ok(false) with the list unchanged. -/
theorem insChildren_spec (ins : CTree → ℤ → ℤ → CTree × InsRes) (px py : ℤ) :
    ∀ cs : List CTree, (∃ c ∈ cs, inNode c px py) →
    (∀ c ∈ cs, inNode c px py →
      ∃ c', ins c px py = (c', .ok true) ∧ bnds c' = bnds c ∧
        ins c' px py = (c', .ok false)) →
    ∃ cs', insChildren ins cs px py = some (cs', .ok true) ∧
      insChildren ins cs' px py = some (cs', .ok false) := by
  intro cs
  induction cs with
  | nil => intro hex _; simp at hex
  | cons c rest ih =>
    intro hex hall
    by_cases hc : inNode c px py
    · obtain ⟨c', hi1, hb, hi2⟩ := hall c (List.mem_cons_self c rest) hc
      refine ⟨c' :: rest, ?_, ?_⟩
      · unfold insChildren
        rw [if_pos hc, hi1]
      · unfold insChildren
        rw [if_pos ((inNode_of_bnds hb px py).mpr hc), hi2]
    · have hex' : ∃ c₀ ∈ rest, inNode c₀ px py := by
        obtain ⟨c₀, hc₀, hin₀⟩ := hex
        cases List.mem_cons.mp hc₀ with
        | inl heq => exact absurd (heq ▸ hin₀) hc
        | inr hmem => exact ⟨c₀, hmem, hin₀⟩
      obtain ⟨cs'', hr1, hr2⟩ := ih hex'
        (fun c₀ hc₀ => hall c₀ (List.mem_cons_of_mem c hc₀))
      refine ⟨c :: cs'', ?_, ?_⟩
      · unfold insChildren
        rw [if_neg hc, hr1]
      · unfold insChildren
        rw [if_neg hc, hr2]

/-- Fueled insert-twice specification: inserting a point that `check_point`
reports free into a well-formed tree returns Ok(true), preserves the node
bounds, and a second insert of the same point returns Ok(false), leaving
the tree unchanged. -/
theorem insertF_twice : ∀ fuel t px py, WF t → inNode t px py →
    checkPointF fuel t px py = false → t.width + t.height < fuel →
    ∃ t', insertF fuel t px py = (t', .ok true) ∧ bnds t' = bnds t ∧
      insertF fuel t' px py = (t', .ok false) := by
  intro fuel
  induction fuel with
  | zero => intro t px py _ _ _ hf; omega
  | succ fuel ih =>
    intro t px py hwf hin hfree hfuel
    obtain ⟨tx, ty, tw, th, tfp, tch, tgr⟩ := t
    obtain ⟨-, hsq, hdvd, hgrid, harea, hgnone, hmap, hwfc⟩ := hwf
    obtain ⟨h1, h2, h3, h4⟩ := hin
    dsimp only at *
    subst hsq
    have hout : ¬ (px < tx ∨ tx + (tw : ℤ) ≤ px ∨ py < ty ∨ ty + (tw : ℤ) ≤ py) := by
      push_neg
      exact ⟨h1, h2, h3, h4⟩
    have hfp : tfp ≠ 0 := by
      intro h0
      rw [checkPointF, if_neg hout] at hfree
      rw [if_pos h0] at hfree
      cases hfree
    rw [insertF, if_neg hout, if_neg hfp]
    cases tch with
    | some cs =>
      have harea' := harea cs rfl
      have hgnone' := hgnone cs rfl
      have hmap' := hmap cs rfl
      have hwfc' := hwfc cs rfl
      subst hgnone'
      have hs65 : 65 ≤ tw := by
        unfold LEAF_AREA at harea'
        by_contra hlt
        push_neg at hlt
        have hb : tw * tw ≤ 64 * 64 := Nat.mul_le_mul (by omega) (by omega)
        omega
      have hcfree : ∀ c ∈ cs, checkPointF fuel c px py = false := by
        rw [checkPointF, if_neg hout, if_neg hfp] at hfree
        dsimp only [Option.getD_some] at hfree
        intro c hc
        have := List.any_eq_false.mp hfree c hc
        simpa using this
      have hcdims : ∀ c ∈ cs, c.width = quant (tw / 2) ∧ c.height = quant (tw / 2) := by
        intro c hc
        have hmem : bnds c ∈ (subdivide tx ty tw tw).map bnds := by
          rw [← hmap']
          exact List.mem_map_of_mem bnds hc
        simp only [subdivide, CTree.new, bnds, List.map_cons, List.map_nil,
          List.mem_cons, List.not_mem_nil, or_false, Prod.mk.injEq] at hmem
        rcases hmem with ⟨-, -, hw, hh⟩ | ⟨-, -, hw, hh⟩ | ⟨-, -, hw, hh⟩ | ⟨-, -, hw, hh⟩ <;>
          exact ⟨hw, hh⟩
      have hq3 : quant (tw / 2) ≤ tw / 2 + 3 := by unfold quant; omega
      have hall : ∀ c ∈ cs, inNode c px py →
          ∃ c', insertF fuel c px py = (c', .ok true) ∧ bnds c' = bnds c ∧
            insertF fuel c' px py = (c', .ok false) := by
        intro c hc hinc
        obtain ⟨hw, hh⟩ := hcdims c hc
        exact ih c px py (hwfc' c hc) hinc (hcfree c hc) (by omega)
      have hex : ∃ c ∈ cs, inNode c px py := by
        obtain ⟨c₀, hc₀, hin₀⟩ := subdivide_covers tx ty tw hdvd px py h1 h2 h3 h4
        have hb : bnds c₀ ∈ cs.map bnds := by
          rw [hmap']
          exact List.mem_map_of_mem bnds hc₀
        obtain ⟨c, hc, hbc⟩ := List.mem_map.mp hb
        exact ⟨c, hc, (inNode_of_bnds hbc px py).mpr hin₀⟩
      obtain ⟨cs', hI1, hI2⟩ := insChildren_spec (insertF fuel) px py cs hex hall
      dsimp only
      rw [hI1]
      refine ⟨⟨tx, ty, tw, tw, tfp - 1, some cs', none⟩, by dsimp only; rw [if_pos rfl],
        rfl, ?_⟩
      rw [insertF, if_neg hout]
      by_cases hz : tfp - 1 = 0
      · rw [if_pos hz]
      · rw [if_neg hz]
        dsimp only
        rw [hI2]
        dsimp only
        rw [if_neg (by simp)]
    | none =>
      dsimp only
      by_cases harea2 : LEAF_AREA < tw * tw
      · -- subdivision on first insert
        rw [if_pos harea2]
        have hs65 : 65 ≤ tw := by
          unfold LEAF_AREA at harea2
          by_contra hlt
          push_neg at hlt
          have hb : tw * tw ≤ 64 * 64 := Nat.mul_le_mul (by omega) (by omega)
          omega
        have hq3 : quant (tw / 2) ≤ tw / 2 + 3 := by unfold quant; omega
        have hq0 : quant (tw / 2) ≠ 0 := by unfold quant; omega
        have hfresh : ∀ c ∈ subdivide tx ty tw tw, c.grid = none ∧ c.children = none ∧
            c.width = quant (tw / 2) ∧ c.height = quant (tw / 2) ∧
            c.free_pixels = quant (tw / 2) * quant (tw / 2) := by
          intro c hc
          simp only [subdivide, CTree.new, List.mem_cons, List.not_mem_nil, or_false] at hc
          rcases hc with rfl | rfl | rfl | rfl <;> exact ⟨rfl, rfl, rfl, rfl, rfl⟩
        have hall : ∀ c ∈ subdivide tx ty tw tw, inNode c px py →
            ∃ c', insertF fuel c px py = (c', .ok true) ∧ bnds c' = bnds c ∧
              insertF fuel c' px py = (c', .ok false) := by
          intro c hc hinc
          obtain ⟨hgr, hchn, hw, hh, hf⟩ := hfresh c hc
          refine ih c px py ?_ hinc ?_ (by omega)
          · refine ⟨_, by rw [hw, hh], by rw [hw]; exact ⟨_, rfl⟩, ?_, ?_, ?_, ?_, ?_⟩
            · intro g hg
              rw [hgr] at hg
              cases hg
            · intro cs0 hcs0
              rw [hchn] at hcs0
              cases hcs0
            · intro cs0 hcs0
              rw [hchn] at hcs0
              cases hcs0
            · intro cs0 hcs0
              rw [hchn] at hcs0
              cases hcs0
            · intro cs0 hcs0
              rw [hchn] at hcs0
              cases hcs0
          · refine checkPointF_structureless fuel c px py hgr hchn ?_
            rw [hf]
            exact Nat.mul_ne_zero hq0 hq0
        have hex : ∃ c ∈ subdivide tx ty tw tw, inNode c px py :=
          subdivide_covers tx ty tw hdvd px py h1 h2 h3 h4
        obtain ⟨cs', hI1, hI2⟩ := insChildren_spec (insertF fuel) px py _ hex hall
        try dsimp only
        rw [hI1]
        refine ⟨⟨tx, ty, tw, tw, tfp - 1, some cs', tgr⟩, by dsimp only; rw [if_pos rfl],
          rfl, ?_⟩
        rw [insertF, if_neg hout]
        by_cases hz : tfp - 1 = 0
        · rw [if_pos hz]
        · rw [if_neg hz]
          dsimp only
          rw [hI2]
          dsimp only
          rw [if_neg (by simp)]
      · -- leaf grid path
        rw [if_neg harea2]
        have hread : (tgr.getD (fun _ => false))
            ((px - tx + (py - ty) * (tw : ℤ)).toNat) = false := by
          rw [checkPointF, if_neg hout, if_neg hfp] at hfree
          cases tgr with
          | none => rfl
          | some g0 => simpa using hfree
        try dsimp only
        rw [if_neg (by simp [hread])]
        refine ⟨_, rfl, rfl, ?_⟩
        rw [insertF, if_neg hout]
        by_cases hz : tfp - 1 = 0
        · rw [if_pos hz]
        · rw [if_neg hz]
          dsimp only
          rw [if_neg harea2]
          dsimp only [Option.getD_some]
          rw [if_pos (by simp)]

/-- C8 amended: (a) for every tree, `insert(p)` returns `Err` exactly when
p is outside the domain bounds; (b) on geometrically well-formed trees —
square 4-aligned nodes with canonical subdivisions, as produced for the
square domains the game constructs — an in-domain point that `check_point`
reports free yields `Ok(true)` then `Ok(false)` on two consecutive inserts,
and the second call changes nothing.  (For non-square domains the first
insert can instead hit the `unreachable!()` abort; see the
counterexample.) -/
theorem C8_insert (t : CTree) (px py : ℤ) :
    ((insert t px py).2 = InsRes.err ↔ ¬ inNode t px py) ∧
    (WF t → inNode t px py → checkPoint t px py = false →
      ∃ t', insert t px py = (t', .ok true) ∧ insert t' px py = (t', .ok false)) := by
  constructor
  · constructor
    · intro herr hin
      exact insertF_ne_err _ t px py hin herr
    · intro hnin
      have hcond : px < t.x ∨ t.x + (t.width : ℤ) ≤ px ∨ py < t.y ∨
          t.y + (t.height : ℤ) ≤ py := by
        unfold inNode at hnin
        omega
      unfold insert treeFuel
      rw [insertF, if_pos hcond]
  · intro hwf hin hfree
    obtain ⟨t', hI1, hb, hI2⟩ := insertF_twice (treeFuel t) t px py hwf hin hfree
      (by unfold treeFuel; omega)
    refine ⟨t', hI1, ?_⟩
    have hfuel : treeFuel t' = treeFuel t := by
      have hw : t'.width = t.width := congrArg (fun p => p.2.2.1) hb
      have hh : t'.height = t.height := congrArg (fun p => p.2.2.2) hb
      unfold treeFuel
      rw [hw, hh]
    rw [insert, hfuel, hI2]

/-- Witness for C8_insert at a fresh 128x128 tree and the interior point
(5,7): the point is free, the first insert returns Ok(true) and the second
returns Ok(false) without changing the tree. -/
theorem C8_insert_witness :
    (insert (CTree.new 0 0 128 128) 5 7).2 = InsRes.ok true ∧
      (insert ((insert (CTree.new 0 0 128 128) 5 7).1) 5 7).2 = InsRes.ok false ∧
      (insert ((insert (CTree.new 0 0 128 128) 5 7).1) 5 7).1 =
        (insert (CTree.new 0 0 128 128) 5 7).1 := by
  obtain ⟨t', h1, h2⟩ := (C8_insert (CTree.new 0 0 128 128) 5 7).2
    (WF.mk _ rfl (by decide) (fun g h => by simp [CTree.new] at h)
      (fun cs h => by simp [CTree.new] at h) (fun cs h => by simp [CTree.new] at h)
      (fun cs h => by simp [CTree.new] at h) (fun cs h => by simp [CTree.new] at h))
    (by decide) (by decide)
  rw [h1]
  dsimp only
  rw [h2]
  exact ⟨rfl, rfl, rfl⟩

end RatEval

end PixelImperfect
